import Mathlib

/-!
# MCP Portal — verification of the tool-synthesis and AI-sandbox layer

Shallow embedding of the MCP Portal repository (React/TypeScript frontend
plus documented backend contracts).  Frontend functions are translated
directly from the TypeScript sources; backend components that exist in the
repository but are not among the available sources (the FastAPI services
`mcp_generator.py`, `ai_agent_tester.py`, `mcp_serving.py`) are modelled
from the specification and are marked as such in their doc comments.
-/

namespace MCPPortal

/-- Parameter location, from `frontend/src/types/endpoint.ts`
(`location: 'path' | 'query' | 'header' | 'cookie'`). -/
inductive ParamLocation
  | path
  | query
  | header
  | cookie
deriving DecidableEq, Repr

/-- `ParameterConfigItem` from `frontend/src/types/endpoint.ts`.
The JSON-schema field `schema : Record<string, any>` is opaque to every
operation verified here and is omitted. -/
structure ParameterConfigItem where
  name : String
  type : String
  location : ParamLocation
  description : String
  /-- Original requiredness from the OpenAPI spec. -/
  required : Bool
  /-- The user's choice; can override `required`. -/
  user_required : Bool
  deprecated : Bool
deriving DecidableEq, Repr

/-- `EndpointConfig` from `frontend/src/types/endpoint.ts`.  The opaque
JSON-schema fields (`request_schema`, `response_schema`) and the
timestamps are omitted; nothing verified here reads them. -/
structure EndpointConfig where
  id : String
  swagger_spec_id : String
  http_method : String
  path : String
  operation_id : Option String
  is_selected : Bool
  mcp_tool_name : Option String
  mcp_description : Option String
  parameter_configurations : Option (List ParameterConfigItem)
deriving DecidableEq, Repr

/-- One property of a compiled tool's input schema
(`input_schema.properties` entries in `Tool`, `useAITesting.ts`). -/
structure PropertySchema where
  type : String
  description : String
deriving DecidableEq, Repr

/-- Input contract of a compiled tool, from the `Tool` interface in
`frontend/src/hooks/useAITesting.ts`:
`input_schema: (type, properties, required: string[])`. -/
structure InputSchema where
  type : String
  properties : List (String × PropertySchema)
  required : List String
deriving DecidableEq, Repr

/-- A compiled tool, from the `Tool` interface in
`frontend/src/hooks/useAITesting.ts`. -/
structure Tool where
  name : String
  description : String
  input_schema : InputSchema
deriving DecidableEq, Repr

/-- JavaScript `a || b` on strings: the empty string is falsy. -/
def jsOrS (s d : String) : String :=
  if s = "" then d else s

/-- JavaScript `String.prototype.trim`: strip leading and trailing
whitespace (character-level, so that it evaluates by reduction). -/
def jsTrim (s : String) : String :=
  String.mk
    (((s.data.dropWhile Char.isWhitespace).reverse.dropWhile
        Char.isWhitespace).reverse)

/-- JavaScript `a || b` where `a` is a nullable string: `null` and the
empty string are both falsy. -/
def jsOr (o : Option String) (d : String) : String :=
  match o with
  | none => d
  | some s => if s = "" then d else s

/-- Character-level sanitisation used by the default-tool-name template in
`EndpointCard.tsx`: `path.replace(/[^a-z0-9]/gi, '_')` keeps ASCII
letters (either case) and digits and replaces every other character by
an underscore. -/
def sanitizeChars (l : List Char) : List Char :=
  l.map fun c => if c.isAlphanum then c else '_'

/-- ASCII lower-casing of one character, as JavaScript
`String.prototype.toLowerCase` acts on the ASCII range. -/
def jsToLowerChar (c : Char) : Char :=
  if 65 ≤ c.toNat ∧ c.toNat ≤ 90 then Char.ofNat (c.toNat + 32) else c

/-- Character-level default tool name from `EndpointCard.tsx`:
the placeholder shown (and generated) for an endpoint with no custom
tool name is
`` `${endpoint.http_method.toLowerCase()}_${endpoint.path.replace(/[^a-z0-9]/gi, '_')}` ``
— the method is lower-cased, the path is sanitised but keeps its case. -/
def defaultToolNameChars (method path : List Char) : List Char :=
  method.map jsToLowerChar ++ '_' :: sanitizeChars path

/-- Default tool name for an endpoint whose `mcp_tool_name` is unset,
read off the `EndpointCard.tsx` template. -/
def defaultToolName (method path : String) : String :=
  String.mk (defaultToolNameChars method.data path.data)

/-- The tool-name default as the specification words it (sanitise, then
lower-case the whole result).  Stated only for comparison with
`defaultToolName`, which is read off the source. -/
def specDefaultToolName (method path : String) : String :=
  String.mk ((method.data ++ '_' :: sanitizeChars path.data).map jsToLowerChar)

/-- The identifier grammar `[a-zA-Z_][a-zA-Z0-9_]*` from the
specification, decided character by character. -/
def isIdentChars : List Char → Bool
  | [] => false
  | c :: cs => (c.isAlpha || c = '_') && cs.all fun d => d.isAlphanum || d = '_'

/-- Errors raised by the tool compiler (specification section 7). -/
inductive CompileError
  | configurationError (msg : String)
deriving DecidableEq, Repr

/-- Modelled from the spec: the backend Tool Compiler
(`backend/app/services/mcp_generator.py`) is not among the available
sources; only its input type (`EndpointConfig` / `ParameterConfigItem`)
and its output shape (`Tool`) are.  Per specification section 4.1:
compilation fails with `ConfigurationError` if the endpoint is selected
and its tool description is empty, or if a parameter lacks a
description; the input contract marks a parameter required exactly when
`user_required` holds; the name defaults per `defaultToolName` when
`mcp_tool_name` is unset. -/
def compileEndpoint (e : EndpointConfig) : Except CompileError Tool :=
  if e.is_selected ∧ e.mcp_description.getD "" = "" then
    .error (.configurationError "tool description required for selected endpoint")
  else if (e.parameter_configurations.getD []).any (fun p => p.description = "") then
    .error (.configurationError "parameter description required")
  else
    .ok
      { name := jsOr e.mcp_tool_name (defaultToolName e.http_method e.path)
        description := e.mcp_description.getD ""
        input_schema :=
          { type := "object"
            properties := (e.parameter_configurations.getD []).map fun p =>
              (p.name, { type := p.type, description := p.description })
            required := ((e.parameter_configurations.getD []).filter fun p =>
              p.user_required).map ParameterConfigItem.name } }

/-- The `required` names of a compilation result (empty on failure). -/
def requiredNames (r : Except CompileError Tool) : List String :=
  match r with
  | .ok t => t.input_schema.required
  | .error _ => []

/-- One batch-update row sent by `handleSave`
(`EndpointConfigBatchUpdate` in `frontend/src/types/endpoint.ts`). -/
structure EndpointConfigBatchUpdate where
  endpoint_id : String
  is_selected : Bool
  mcp_tool_name : Option String
  mcp_description : Option String
  parameter_configurations : Option (List ParameterConfigItem)
deriving DecidableEq, Repr

/-- Outcome of the save handler in `DocumentationPage.tsx`. -/
inductive SaveAction
  /-- `if (!specId) return` — nothing happens. -/
  | noSpec
  /-- Validation failed: an alert lists the offending endpoints and no
  batch update is issued. -/
  | blocked (endpointNames : List String)
  /-- Validation passed: the batch update is sent. -/
  | save (updates : List EndpointConfigBatchUpdate)
deriving DecidableEq, Repr

/-- `handleSave` from `frontend/src/pages/DocumentationPage.tsx`
(lines 780–811): before any save, every selected endpoint must carry a
non-empty `mcp_description`; otherwise the save is blocked with an alert
naming the offending endpoints (`METHOD path`) and the batch update is
never issued. -/
def handleSave (specId : Option String) (localConfigs : List EndpointConfig) :
    SaveAction :=
  match specId with
  | none => .noSpec
  | some _ =>
    if (localConfigs.filter fun c =>
          c.is_selected ∧ c.mcp_description.getD "" = "") ≠ [] then
      .blocked ((localConfigs.filter fun c =>
          c.is_selected ∧ c.mcp_description.getD "" = "").map fun c =>
        c.http_method ++ " " ++ c.path)
    else
      .save (localConfigs.map fun c =>
        { endpoint_id := c.id
          is_selected := c.is_selected
          mcp_tool_name := c.mcp_tool_name
          mcp_description := c.mcp_description
          parameter_configurations := c.parameter_configurations })

/-- A deployed MCP server as the core sees it (specification section 3,
`DeployedServer`): identity, live base URL, compiled tool set, active
flag. -/
structure DeployedServer where
  id : String
  baseUrl : String
  tools : List Tool
  active : Bool
deriving DecidableEq, Repr

/-- One entry of the composed toolset: final (possibly disambiguated)
name, owning server, tool definition (specification section 3,
`ComposedToolset`). -/
structure ComposedEntry where
  name : String
  serverId : String
  tool : Tool
deriving DecidableEq, Repr

/-- Modelled from the spec: the backend Toolset Composer (inside
`backend/app/services/ai_agent_tester.py`; the frontend only notes that
"backend will combine tools from all selected servers",
`AITestingPage.tsx`) is not among the available sources.  Per
specification section 4.3: when a tool name is already present in the
composed set, the later tool is kept under
`name ++ "_" ++ serverId.take 8`; otherwise it is kept under its own
name.  Nothing is ever dropped. -/
def composeStep (acc : List ComposedEntry) (sid : String) (t : Tool) :
    List ComposedEntry :=
  if t.name ∈ acc.map ComposedEntry.name then
    acc ++ [{ name := t.name ++ "_" ++ sid.take 8, serverId := sid, tool := t }]
  else
    acc ++ [{ name := t.name, serverId := sid, tool := t }]

/-- Modelled from the spec: fold `composeStep` over one server's tools
in order (specification section 4.3). -/
def composeServer (acc : List ComposedEntry) (s : DeployedServer) :
    List ComposedEntry :=
  s.tools.foldl (fun a t => composeStep a s.id t) acc

/-- Modelled from the spec: compose the given servers in order into one
session toolset (specification section 4.3). -/
def compose (servers : List DeployedServer) : List ComposedEntry :=
  servers.foldl composeServer []

/-- Summary row of a deployed server as listed by `AITestingPage.tsx`
(`selected_endpoints_count` is the server's tool count). -/
structure DeployedServerSummary where
  id : String
  selected_endpoints_count : Nat
deriving DecidableEq, Repr

/-- `totalToolCount` from `AITestingPage.tsx` (lines 55–58): the sum of
the selected servers' tool counts,
`selectedServers.reduce((sum, server) => sum + (server.selected_endpoints_count || 0), 0)`. -/
def totalToolCount (selectedServers : List DeployedServerSummary) : Nat :=
  selectedServers.foldl (fun sum s => sum + s.selected_endpoints_count) 0

/-- Dispatch-time errors of the request synthesizer (specification
sections 4.5 and 7). -/
inductive ExecError
  | unknownTool
  | unknownServer
  | serverInactive
deriving DecidableEq, Repr

/-- Look a server up by id (`get` of the Server Registry, specification
section 4.2).  The registry itself is the list of deployed servers. -/
def getServer (reg : List DeployedServer) (sid : String) :
    Option DeployedServer :=
  reg.find? fun s => s.id == sid

/-- Modelled from the spec: `updateBaseUrl` of the backend Server
Registry (`backend/app/services/mcp_serving.py`, reached through the
`PATCH .../base-url` call of `useUpdateBaseURL` in
`frontend/src/hooks/useSwaggerSpec.ts`) is not among the available
sources.  Per specification section 4.2 it replaces only the stored base
URL of the addressed server; tools and the active flag are untouched and
no recompilation happens. -/
def updateBaseUrl (reg : List DeployedServer) (sid url : String) :
    List DeployedServer :=
  reg.map fun s => if s.id == sid then { s with baseUrl := url } else s

/-- Modelled from the spec: the dispatch step of the Request Synthesizer
(specification section 4.5, steps 1–2 and 4): resolve the tool in the
composed toolset, re-check the owning server's registration and activity
at call time, and target `baseUrl` of the live server record.  The
returned value is the base URL the outbound call is issued against;
path/query assembly is orthogonal to the claims verified here. -/
def executeTarget (reg : List DeployedServer) (toolset : List ComposedEntry)
    (toolName : String) : Except ExecError String :=
  match toolset.find? fun e => e.name == toolName with
  | none => .error .unknownTool
  | some e =>
    match getServer reg e.serverId with
    | none => .error .unknownServer
    | some s => if s.active then .ok s.baseUrl else .error .serverInactive

/-- A session transcript: the registry plus the results already returned
to the caller, in order. -/
structure Session where
  registry : List DeployedServer
  transcript : List (String × Except ExecError String)
deriving Repr

/-- Executing a tool appends its result (computed against the current
registry) to the transcript. -/
def execStep (sess : Session) (toolset : List ComposedEntry)
    (toolName : String) : Session :=
  { sess with transcript :=
      sess.transcript ++ [(toolName, executeTarget sess.registry toolset toolName)] }

/-- A base-URL update mutates the registry only; the transcript of
already-returned results is untouched. -/
def updateStep (sess : Session) (sid url : String) : Session :=
  { sess with registry := updateBaseUrl sess.registry sid url }

/-- A tool invocation requested by the model (`ToolCall` in
`frontend/src/hooks/useAITesting.ts`).  The argument object
(`input: Record<string, any>`) is opaque to the loop and kept as its
JSON text. -/
structure ToolCall where
  id : String
  name : String
  input : String
deriving DecidableEq, Repr

/-- Token usage, from the response interfaces in `useAITesting.ts`. -/
structure Usage where
  input_tokens : Nat
  output_tokens : Nat
deriving DecidableEq, Repr

/-- Request body of `POST .../test` (`TestMessageRequest` in
`useAITesting.ts`).  The per-call credential fields (`api_key`,
`base_url`, `authorization`) and `custom_tools` are passed through
unread by the loop and are omitted; conversation-history entries are
opaque to the frontend and modelled as blobs. -/
structure TestMessageRequest where
  message : String
  conversation_history : List String
  provider : String
  model : String
  server_ids : List String
deriving DecidableEq, Repr

/-- Response of `POST .../test` (`TestMessageResponse` in
`useAITesting.ts`). -/
structure TestMessageResponse where
  response : String
  tool_calls : List ToolCall
  conversation_history : List String
  stop_reason : String
  usage : Usage
  requires_tool_execution : Bool
deriving DecidableEq, Repr

/-- Request body of `POST .../execute-tool` (`ToolExecutionRequest` in
`useAITesting.ts`), with the same omissions as `TestMessageRequest`. -/
structure ToolExecutionRequest where
  tool_call : ToolCall
  conversation_history : List String
  provider : String
  model : String
  server_ids : List String
deriving DecidableEq, Repr

/-- Response of `POST .../execute-tool` (`ToolExecutionResponse` in
`useAITesting.ts`): the provider's follow-up text, the tool's execution
result, and any additional tool calls the provider requested after
seeing that result. -/
structure ToolExecutionResponse where
  response : String
  tool_execution_result : String
  additional_tool_calls : List ToolCall
  conversation_history : List String
  stop_reason : String
  usage : Usage
deriving DecidableEq, Repr

/-- A chat message of the sandbox page (`Message` in
`AITestingPage.tsx`). -/
inductive Role
  | user
  | assistant
deriving DecidableEq, Repr

/-- `Message` from `AITestingPage.tsx`; the optional `toolCalls`,
`toolResults` and `usage` fields default to empty/none. -/
structure Message where
  role : Role
  content : String
  toolCalls : List ToolCall
  toolResults : List String
  usage : Option Usage
deriving DecidableEq, Repr

/-- The component state of `AITestingPage.tsx` that `handleSendMessage`
reads and writes, plus the provider configuration it copies into each
request. -/
structure SandboxState where
  messages : List Message
  inputMessage : String
  conversationHistory : List String
  selectedServerIds : List String
  provider : String
  model : String
deriving DecidableEq, Repr

/-- The two backend endpoints the sandbox page calls, as oracles; a
transport failure is an error string (axios rejection). -/
structure Backend where
  test : TestMessageRequest → Except String TestMessageResponse
  exec : ToolExecutionRequest → Except String ToolExecutionResponse

/-- Observable events of one agent-loop turn: provider calls and tool
executions. -/
inductive AgentEvent
  | providerCall
  | toolExec (tc : ToolCall)
deriving DecidableEq, Repr

/-- Modelled from the spec: the backend `test` endpoint
(`backend/app/api/v1/ai_testing.py`, not among the available sources)
issues exactly one provider call per request — its response carries one
assistant turn with `usage` and `stop_reason`. -/
def testEvents : List AgentEvent := [.providerCall]

/-- Modelled from the spec: the backend `execute-tool` endpoint
(`backend/app/api/v1/ai_testing.py`, not among the available sources)
executes the one invocation it is given and then issues one provider
call — its response carries the tool execution result together with the
provider's follow-up text, `usage`, `stop_reason` and any
`additional_tool_calls`. -/
def execToolEvents (tc : ToolCall) : List AgentEvent :=
  [.toolExec tc, .providerCall]

/-- The `test` request built at `AITestingPage.tsx` lines 100–109. -/
def mkTestReq (st : SandboxState) : TestMessageRequest :=
  { message := st.inputMessage
    conversation_history := st.conversationHistory
    provider := st.provider
    model := st.model
    server_ids := st.selectedServerIds }

/-- The `execute-tool` request built at `AITestingPage.tsx` lines
128–137.  Note: the source passes `result.conversation_history` — the
history returned by the initial provider call — for every invocation of
the loop, not the history updated by earlier tool results. -/
def mkExecReq (st : SandboxState) (origHist : List String) (tc : ToolCall) :
    ToolExecutionRequest :=
  { tool_call := tc
    conversation_history := origHist
    provider := st.provider
    model := st.model
    server_ids := st.selectedServerIds }

/-- The user chat message appended by `handleSendMessage`
(`AITestingPage.tsx` lines 91–96); its content is the input read before
the input field is cleared. -/
def userMessage (st : SandboxState) : Message :=
  { role := .user
    content := st.inputMessage
    toolCalls := []
    toolResults := []
    usage := none }

/-- Component state right after the user message is appended and the
input cleared (`AITestingPage.tsx` lines 96–97). -/
def afterUser (st : SandboxState) : SandboxState :=
  { st with
    messages := st.messages ++ [userMessage st]
    inputMessage := "" }

/-- The assistant chat message built from the initial provider response
(`AITestingPage.tsx` lines 115–120); an empty response text falls back
to the placeholder. -/
def assistantMessage (result : TestMessageResponse) : Message :=
  { role := .assistant
    content := jsOrS result.response "(Tool calls in progress...)"
    toolCalls := result.tool_calls
    toolResults := []
    usage := some result.usage }

/-- Component state after the initial provider response is applied:
conversation history replaced, assistant message appended
(`AITestingPage.tsx` lines 111–122). -/
def afterAssistant (st : SandboxState) (result : TestMessageResponse) :
    SandboxState :=
  { afterUser st with
    conversationHistory := result.conversation_history
    messages := (afterUser st).messages ++ [assistantMessage result] }

/-- The error chat message appended by the `catch` block of
`handleSendMessage` (lines 153–159). -/
def errorMessage (e : String) : Message :=
  { role := .assistant
    content := "Error: " ++ jsOrS e "Failed to communicate with AI"
    toolCalls := []
    toolResults := []
    usage := none }

/-- The assistant message appended after one successful execute-tool
round trip (`AITestingPage.tsx` lines 143–150). -/
def execFinalMessage (tr : ToolExecutionResponse) : Message :=
  { role := .assistant
    content := tr.response
    toolCalls := []
    toolResults := [tr.tool_execution_result]
    usage := some tr.usage }

/-- State advance after one successful execute-tool round trip
(`AITestingPage.tsx` lines 139–150): the conversation history is
replaced by the returned one and the final message is appended. -/
def execAdvance (st : SandboxState) (tr : ToolExecutionResponse) :
    SandboxState :=
  { st with
    conversationHistory := tr.conversation_history
    messages := st.messages ++ [execFinalMessage tr] }

/-- The sequential tool-execution loop of `handleSendMessage`
(`AITestingPage.tsx` lines 127–151): one awaited `execute-tool` call per
invocation of the initial response, each receiving the original
`result.conversation_history`; each success appends one assistant
message carrying the follow-up text and the execution result; a
transport failure propagates to the `catch`, which appends one error
message and abandons the remaining invocations. -/
def runToolLoop (be : Backend) (origHist : List String) :
    List ToolCall → SandboxState → SandboxState × List AgentEvent
  | [], st => (st, [])
  | tc :: rest, st =>
    match be.exec (mkExecReq st origHist tc) with
    | .error e =>
      ({ st with messages := st.messages ++ [errorMessage e] }, [])
    | .ok tr =>
      let next := runToolLoop be origHist rest (execAdvance st tr)
      (next.1, execToolEvents tc ++ next.2)

/-- `handleSendMessage` from `AITestingPage.tsx` (lines 88–160),
returning the new component state together with the turn's observable
events.  Faithful points: the guard returns unchanged state when the
trimmed input is empty or no server is selected; the user message is
appended and the input cleared before the `test` call; the assistant
message falls back to a placeholder when the response text is empty;
tools are executed sequentially only when `requires_tool_execution` and
the invocation list is non-empty; `additional_tool_calls` of the
execute-tool responses are never read. -/
def handleSendMessage (be : Backend) (st : SandboxState) :
    SandboxState × List AgentEvent :=
  if jsTrim st.inputMessage = "" ∨ st.selectedServerIds = [] then (st, [])
  else
    match be.test (mkTestReq st) with
    | .error e =>
      ({ afterUser st with
          messages := (afterUser st).messages ++ [errorMessage e] }, [])
    | .ok result =>
      if result.requires_tool_execution = true ∧ result.tool_calls ≠ [] then
        let next := runToolLoop be result.conversation_history result.tool_calls
          (afterAssistant st result)
        (next.1, testEvents ++ next.2)
      else
        (afterAssistant st result, testEvents)

/-- `true` iff the event is a tool execution. -/
def isToolExec : AgentEvent → Bool
  | .toolExec _ => true
  | .providerCall => false

/-- `true` iff some tool execution occurs at or after the first provider
call of the list. -/
def hasExecAfterFirstCall : List AgentEvent → Bool
  | [] => false
  | .toolExec _ :: rest => hasExecAfterFirstCall rest
  | .providerCall :: rest => rest.any isToolExec

/-- The ordering half of specification section 5 for one turn: after the
initial provider call, every tool execution must precede the next
provider call; equivalently, dropping the initial call, no execution
occurs after a later provider call. -/
def allExecsBeforeNextCall (evs : List AgentEvent) : Bool :=
  match evs with
  | [] => true
  | _ :: rest => !hasExecAfterFirstCall rest

/-- Concrete fixture: first invocation returned by the provider. -/
def tcA : ToolCall := { id := "call_1", name := "get_user", input := "" }

/-- Concrete fixture: second invocation returned by the provider. -/
def tcB : ToolCall := { id := "call_2", name := "list_orders", input := "" }

/-- Concrete fixture: an additional invocation returned only by the
execute-tool follow-up. -/
def tcC : ToolCall := { id := "call_3", name := "get_user", input := "" }

/-- Concrete fixture: sandbox state with one selected server and a
non-blank input. -/
def st0 : SandboxState :=
  { messages := []
    inputMessage := "hi"
    conversationHistory := []
    selectedServerIds := ["srv1"]
    provider := "anthropic"
    model := "claude-3-haiku-20240307" }

/-- Concrete fixture: initial provider response requesting two tool
invocations. -/
def twoCallResponse : TestMessageResponse :=
  { response := ""
    tool_calls := [tcA, tcB]
    conversation_history := ["h1"]
    stop_reason := "tool_use"
    usage := { input_tokens := 1, output_tokens := 1 }
    requires_tool_execution := true }

/-- Concrete fixture: a successful execute-tool response with no
additional invocations. -/
def okExecResponse : ToolExecutionResponse :=
  { response := "done"
    tool_execution_result := "result-json"
    additional_tool_calls := []
    conversation_history := ["h2"]
    stop_reason := "end_turn"
    usage := { input_tokens := 1, output_tokens := 1 } }

/-- Concrete fixture: a backend whose provider requests two invocations
and whose execute-tool calls all succeed. -/
def be2 : Backend :=
  { test := fun _ => .ok twoCallResponse
    exec := fun _ => .ok okExecResponse }

/-- Concrete fixture: initial provider response requesting one tool
invocation. -/
def oneCallResponse : TestMessageResponse :=
  { response := ""
    tool_calls := [tcA]
    conversation_history := ["h1"]
    stop_reason := "tool_use"
    usage := { input_tokens := 1, output_tokens := 1 }
    requires_tool_execution := true }

/-- Concrete fixture: an execute-tool response whose provider follow-up
requests a further invocation (`tcC`). -/
def tr3 : ToolExecutionResponse :=
  { response := "calling again"
    tool_execution_result := "r404"
    additional_tool_calls := [tcC]
    conversation_history := ["h3"]
    stop_reason := "tool_use"
    usage := { input_tokens := 1, output_tokens := 1 } }

/-- Concrete fixture: a backend whose execute-tool follow-up keeps
requesting one more invocation. -/
def be3 : Backend :=
  { test := fun _ => .ok oneCallResponse
    exec := fun _ => .ok tr3 }

lemma jsToLowerChar_isAlpha (c : Char) (h : c.isAlpha = true) :
    (jsToLowerChar c).isAlpha = true := by
  unfold jsToLowerChar
  split
  case isTrue hc =>
    obtain ⟨h65, h90⟩ := hc
    generalize hg : c.toNat = n at h65 h90 ⊢
    interval_cases n <;> decide
  case isFalse hc => exact h

lemma isAlpha_isAlphanum (c : Char) (h : c.isAlpha = true) :
    c.isAlphanum = true := by
  simp [Char.isAlphanum, h]

/-- C10: submitting a message with empty or whitespace-only input, or
with no server selected, is a no-op — the guard of `handleSendMessage`
returns before any request: the state (displayed messages, conversation
history, input) is unchanged and no backend event occurs. -/
theorem sendMessage_blank_or_no_server_noop (be : Backend) (st : SandboxState)
    (h : jsTrim st.inputMessage = "" ∨ st.selectedServerIds = []) :
    handleSendMessage be st = (st, []) := by
  unfold handleSendMessage
  rw [if_pos h]

/-- C10 witness: a whitespace-only input with a selected server is a
no-op. -/
theorem sendMessage_blank_or_no_server_noop_witness :
    (jsTrim "   " = "" ∨ (["srv1"] : List String) = [])
    ∧ handleSendMessage be2 { st0 with inputMessage := "   " } =
        ({ st0 with inputMessage := "   " }, []) :=
  ⟨Or.inl (by decide),
   sendMessage_blank_or_no_server_noop be2 { st0 with inputMessage := "   " }
     (Or.inl (by decide))⟩

/-- C9 counterexample: the default tool name is not lower-cased as a
whole.  For method `GET` and path `/Users` the source template
(`EndpointCard.tsx` line 543) lower-cases only the method and keeps the
path's case, yielding `get__Users`, while the claimed rule
(sanitise, then lower-case the result) would yield `get__users`. -/
theorem defaultToolName_not_lowercased :
    defaultToolName "GET" "/Users" = "get__Users"
    ∧ specDefaultToolName "GET" "/Users" = "get__users"
    ∧ defaultToolName "GET" "/Users" ≠ specDefaultToolName "GET" "/Users" :=
  ⟨by decide, by decide, by decide⟩

/-- C9 (amended): for an endpoint whose tool name is unset the compiled
default is `lowercase(method) ++ "_" ++ path` with every
non-alphanumeric path character replaced by `_` and the path's case
preserved; whenever the method is a non-empty alphabetic token the
result satisfies the identifier grammar `[a-zA-Z_][a-zA-Z0-9_]*`. -/
theorem defaultToolName_shape_and_grammar (method path : String)
    (hne : method.data ≠ [])
    (halpha : ∀ c ∈ method.data, c.isAlpha = true) :
    defaultToolName method path =
      String.mk (method.data.map jsToLowerChar) ++ "_" ++
        String.mk (sanitizeChars path.data)
    ∧ isIdentChars (defaultToolName method path).data = true := by
  constructor
  · show String.mk (method.data.map jsToLowerChar ++ '_' :: sanitizeChars path.data) = _
    have happ : ∀ a b : List Char, String.mk a ++ String.mk b = String.mk (a ++ b) :=
      fun a b => rfl
    rw [happ, happ]
    exact congrArg String.mk (by simp)
  · show isIdentChars (method.data.map jsToLowerChar ++ '_' :: sanitizeChars path.data) = true
    cases hm : method.data with
    | nil => exact absurd hm hne
    | cons c cs =>
      simp only [List.map_cons, List.cons_append, isIdentChars,
        Bool.and_eq_true, Bool.or_eq_true, List.all_eq_true]
      constructor
      · left
        exact jsToLowerChar_isAlpha c (halpha c (hm ▸ List.mem_cons_self c cs))
      · intro d hd
        rcases List.mem_append.mp hd with hd1 | hd2
        · obtain ⟨c2, hc2, rfl⟩ := List.mem_map.mp hd1
          left
          exact isAlpha_isAlphanum _
            (jsToLowerChar_isAlpha c2 (halpha c2 (hm ▸ List.mem_cons_of_mem c hc2)))
        · rcases List.mem_cons.mp hd2 with rfl | hd3
          · right; rfl
          · obtain ⟨c3, _, rfl⟩ := List.mem_map.mp hd3
            by_cases hc3 : c3.isAlphanum = true
            · left; simp [hc3]
            · right; simp [hc3]

/-- C9 witness: the amended default-name rule evaluated at `GET`
`/Users`. -/
theorem defaultToolName_shape_and_grammar_witness :
    defaultToolName "GET" "/Users" =
      String.mk ("GET".data.map jsToLowerChar) ++ "_" ++
        String.mk (sanitizeChars "/Users".data)
    ∧ isIdentChars (defaultToolName "GET" "/Users").data = true :=
  defaultToolName_shape_and_grammar "GET" "/Users" (by decide) (by decide)

lemma composeStep_length (acc : List ComposedEntry) (sid : String) (t : Tool) :
    (composeStep acc sid t).length = acc.length + 1 := by
  unfold composeStep
  split <;> simp

lemma composeFold_length (sid : String) (ts : List Tool) :
    ∀ acc : List ComposedEntry,
      (ts.foldl (fun a t => composeStep a sid t) acc).length =
        acc.length + ts.length := by
  induction ts with
  | nil => intro acc; simp
  | cons t ts ih =>
    intro acc
    simp only [List.foldl_cons, ih, composeStep_length, List.length_cons]
    omega

lemma composeServer_length (acc : List ComposedEntry) (s : DeployedServer) :
    (composeServer acc s).length = acc.length + s.tools.length :=
  composeFold_length s.id s.tools acc

lemma composeFoldServers_length (servers : List DeployedServer) :
    ∀ acc : List ComposedEntry,
      (servers.foldl composeServer acc).length =
        acc.length + (servers.map fun s => s.tools.length).sum := by
  induction servers with
  | nil => intro acc; simp
  | cons s ss ih =>
    intro acc
    simp only [List.foldl_cons, ih, composeServer_length, List.map_cons,
      List.sum_cons]
    omega

lemma totalToolCount_eq_sum (l : List DeployedServerSummary) :
    totalToolCount l = (l.map fun s => s.selected_endpoints_count).sum := by
  have h : ∀ (l : List DeployedServerSummary) (n : Nat),
      l.foldl (fun sum s => sum + s.selected_endpoints_count) n =
        n + (l.map fun s => s.selected_endpoints_count).sum := by
    intro l
    induction l with
    | nil => intro n; simp
    | cons s ss ih =>
      intro n
      simp only [List.foldl_cons, ih, List.map_cons, List.sum_cons]
      omega
  simpa using h l 0

/-- C5: the composed toolset has exactly as many entries as the selected
servers have tools in total — the count the sandbox page computes as
`totalToolCount` — and this holds unconditionally, collisions included,
because `composeStep` always appends (renaming, never dropping). -/
theorem compose_count_eq_totalToolCount (servers : List DeployedServer) :
    (compose servers).length =
      totalToolCount (servers.map fun s =>
        { id := s.id, selected_endpoints_count := s.tools.length }) := by
  unfold compose
  rw [composeFoldServers_length, totalToolCount_eq_sum]
  simp only [List.length_nil, List.map_map, Nat.zero_add]
  rfl

/-- C6: when a later server's tool collides with a name already in the
composed set, the tool is kept under its name extended with
`_<first 8 characters of the owning server id>`; every earlier entry is
preserved, and when the disambiguated name is fresh and the set was
collision-free the resulting names are again pairwise distinct — no
colliding tool is dropped. -/
theorem compose_collision_renames (acc : List ComposedEntry) (sid : String)
    (t : Tool) (hcol : t.name ∈ acc.map ComposedEntry.name) :
    composeStep acc sid t =
      acc ++ [{ name := t.name ++ "_" ++ sid.take 8, serverId := sid, tool := t }]
    ∧ (∀ e ∈ acc, e ∈ composeStep acc sid t)
    ∧ ((acc.map ComposedEntry.name).Nodup →
        (t.name ++ "_" ++ sid.take 8) ∉ acc.map ComposedEntry.name →
        ((composeStep acc sid t).map ComposedEntry.name).Nodup) := by
  have hstep : composeStep acc sid t =
      acc ++ [{ name := t.name ++ "_" ++ sid.take 8, serverId := sid, tool := t }] := by
    unfold composeStep
    rw [if_pos hcol]
  refine ⟨hstep, ?_, ?_⟩
  · intro e he
    rw [hstep]
    exact List.mem_append_left _ he
  · intro hnd hfresh
    rw [hstep]
    simp only [List.map_append, List.map_cons, List.map_nil, List.nodup_append,
      List.nodup_cons, List.not_mem_nil, not_false_iff, List.nodup_nil,
      true_and, and_true]
    exact ⟨hnd, by simpa [List.disjoint_right] using hfresh⟩

/-- Concrete fixture: server A's `get_user` tool. -/
def toolGetUserA : Tool :=
  { name := "get_user"
    description := "get a user, server A"
    input_schema := { type := "object", properties := [], required := [] } }

/-- Concrete fixture: server B's `get_user` tool. -/
def toolGetUserB : Tool :=
  { name := "get_user"
    description := "get a user, server B"
    input_schema := { type := "object", properties := [], required := [] } }

/-- Concrete fixture: composed set already holding server A's
`get_user`. -/
def accA : List ComposedEntry :=
  [{ name := "get_user", serverId := "server-a-uuid", tool := toolGetUserA }]

/-- C6 witness: composing server B's colliding `get_user` after server A
keeps both tools, the later one renamed to `get_user_server-b`. -/
theorem compose_collision_renames_witness :
    composeStep accA "server-b-uuid" toolGetUserB =
      accA ++ [{ name := "get_user_server-b", serverId := "server-b-uuid",
                 tool := toolGetUserB }] :=
  (compose_collision_renames accA "server-b-uuid" toolGetUserB (by decide)).1

/-- C3: for every parameter of a successfully compiled tool, membership
in the input contract's `required` list is exactly the parameter's
`user_required` choice, irrespective of the spec-declared `required`
flag (parameter names assumed pairwise distinct, as they key the
contract). -/
theorem compile_required_iff_userRequired (e : EndpointConfig) (t : Tool)
    (p : ParameterConfigItem)
    (hok : compileEndpoint e = .ok t)
    (hp : p ∈ e.parameter_configurations.getD [])
    (hnodup :
      ((e.parameter_configurations.getD []).map ParameterConfigItem.name).Nodup) :
    p.name ∈ t.input_schema.required ↔ p.user_required = true := by
  unfold compileEndpoint at hok
  split at hok
  · exact absurd hok (by simp)
  · split at hok
    · exact absurd hok (by simp)
    · injection hok with h
      subst h
      simp only [List.mem_map, List.mem_filter]
      constructor
      · rintro ⟨q, ⟨hq, hqr⟩, hqname⟩
        have hqp := List.inj_on_of_nodup_map hnodup hq hp hqname
        rw [← hqp]
        exact hqr
      · intro hur
        exact ⟨p, ⟨hp, hur⟩, rfl⟩

/-- Concrete fixture: a parameter declared optional in the OpenAPI spec
but made mandatory by the user. -/
def exampleParamUserId : ParameterConfigItem :=
  { name := "user_id"
    type := "string"
    location := .query
    description := "the user to fetch"
    required := false
    user_required := true
    deprecated := false }

/-- Concrete fixture: a selected, documented endpoint with the one
parameter above. -/
def exampleEndpoint : EndpointConfig :=
  { id := "ep1"
    swagger_spec_id := "spec1"
    http_method := "GET"
    path := "/users"
    operation_id := some "getUsers"
    is_selected := true
    mcp_tool_name := none
    mcp_description := some "List users"
    parameter_configurations := some [exampleParamUserId] }

/-- Concrete fixture: the compiled form of `exampleEndpoint`. -/
def exampleTool : Tool :=
  { name := "get__users"
    description := "List users"
    input_schema :=
      { type := "object"
        properties := [("user_id",
          { type := "string", description := "the user to fetch" })]
        required := ["user_id"] } }

/-- C3 witness: a parameter with `required = false` but
`user_required = true` is marked required in the compiled tool. -/
theorem compile_required_iff_userRequired_witness :
    compileEndpoint exampleEndpoint = .ok exampleTool
    ∧ exampleParamUserId.required = false
    ∧ "user_id" ∈ exampleTool.input_schema.required :=
  ⟨rfl, rfl,
   (compile_required_iff_userRequired exampleEndpoint exampleTool
      exampleParamUserId rfl (by decide) (by decide)).mpr rfl⟩

/-- Concrete fixture: a selected endpoint whose tool description was
never provided. -/
def badEndpoint : EndpointConfig :=
  { id := "ep-bad"
    swagger_spec_id := "spec-1"
    http_method := "GET"
    path := "/users"
    operation_id := none
    is_selected := true
    mcp_tool_name := none
    mcp_description := none
    parameter_configurations := none }

/-- C4 counterexample: the empty-description check on selected endpoints
is enforced earlier than compile time — `handleSave` in
`DocumentationPage.tsx` already blocks the configuration (alerting and
issuing no batch update) before any compilation is attempted, refuting
"enforced at compile time, not earlier in the pipeline". -/
theorem handleSave_blocks_before_compile :
    handleSave (some "spec-1") [badEndpoint] =
      SaveAction.blocked ["GET /users"] := by
  decide

/-- C4 (amended): a selected endpoint with an empty tool description is
rejected at compile time with `ConfigurationError`, and the same check
is additionally enforced earlier in the pipeline: a save containing
such an endpoint is blocked and the batch update is never issued. -/
theorem selected_empty_description_rejected (e : EndpointConfig)
    (cfgs : List EndpointConfig) (sid : String)
    (hsel : e.is_selected = true)
    (hdesc : e.mcp_description.getD "" = "")
    (hmem : e ∈ cfgs) :
    (∃ msg, compileEndpoint e = .error (.configurationError msg))
    ∧ ∀ u, handleSave (some sid) cfgs ≠ SaveAction.save u := by
  constructor
  · refine ⟨"tool description required for selected endpoint", ?_⟩
    unfold compileEndpoint
    rw [if_pos ⟨hsel, hdesc⟩]
  · intro u hu
    unfold handleSave at hu
    have hin : e ∈ cfgs.filter fun c =>
        c.is_selected ∧ c.mcp_description.getD "" = "" := by
      rw [List.mem_filter]
      exact ⟨hmem, by simp [hsel, hdesc]⟩
    rw [if_pos (List.ne_nil_of_mem hin)] at hu
    exact SaveAction.noConfusion hu

/-- C4 witness: the amended claim at the concrete unconfigured
endpoint. -/
theorem selected_empty_description_rejected_witness :
    (∃ msg, compileEndpoint badEndpoint = .error (.configurationError msg))
    ∧ ∀ u, handleSave (some "spec-1") [badEndpoint] ≠ SaveAction.save u :=
  selected_empty_description_rejected badEndpoint [badEndpoint] "spec-1"
    rfl (by decide) (by decide)

lemma find?_map_pres (f : DeployedServer → DeployedServer)
    (p : DeployedServer → Bool) (hf : ∀ s, p (f s) = p s) :
    ∀ l : List DeployedServer, (l.map f).find? p = (l.find? p).map f := by
  intro l
  induction l with
  | nil => rfl
  | cons a l ih =>
    by_cases hp : p a = true
    · rw [List.map_cons, List.find?_cons_of_pos _ (by rw [hf]; exact hp),
        List.find?_cons_of_pos _ hp]
      rfl
    · rw [List.map_cons,
        List.find?_cons_of_neg _ (by rw [hf]; simpa using hp),
        List.find?_cons_of_neg _ (by simpa using hp), ih]

lemma getServer_updateBaseUrl (reg : List DeployedServer) (sid url sid2 : String) :
    getServer (updateBaseUrl reg sid url) sid2 =
      (getServer reg sid2).map fun s =>
        if s.id == sid then { s with baseUrl := url } else s := by
  unfold getServer updateBaseUrl
  exact find?_map_pres _ _
    (fun s => by by_cases h : (s.id == sid) = true <;> simp [h]) reg

/-- C8: updating a deployed server's base URL changes only the stored
base URL — the server's tools and active flag are untouched (no
recompilation or redeploy), every other server is untouched, subsequent
`execute` dispatches for that server's tools target the new URL where
they previously targeted the old one, and the transcript of
already-returned results is unchanged. -/
theorem updateBaseUrl_frame (reg : List DeployedServer) (sid url : String)
    (sess : Session) (toolset : List ComposedEntry) (toolName : String)
    (en : ComposedEntry) (s : DeployedServer)
    (hfind : toolset.find? (fun x => x.name == toolName) = some en)
    (hsid : en.serverId = sid)
    (hget : getServer reg sid = some s)
    (hactive : s.active = true) :
    getServer (updateBaseUrl reg sid url) sid = some { s with baseUrl := url }
    ∧ (∀ sid2, sid2 ≠ sid →
        getServer (updateBaseUrl reg sid url) sid2 = getServer reg sid2)
    ∧ executeTarget reg toolset toolName = .ok s.baseUrl
    ∧ executeTarget (updateBaseUrl reg sid url) toolset toolName = .ok url
    ∧ (updateStep sess sid url).transcript = sess.transcript := by
  have hget2 : reg.find? (fun x => x.id == sid) = some s := hget
  have hsidtrue : (s.id == sid) = true := by
    have h := List.find?_some hget2
    simpa using h
  have h1 : getServer (updateBaseUrl reg sid url) sid =
      some { s with baseUrl := url } := by
    rw [getServer_updateBaseUrl, hget]
    show some (if s.id == sid then { s with baseUrl := url } else s) = _
    rw [if_pos hsidtrue]
  refine ⟨h1, ?_, ?_, ?_, rfl⟩
  · intro sid2 hne
    rw [getServer_updateBaseUrl]
    cases hg2 : getServer reg sid2 with
    | none => rfl
    | some s2 =>
      have hg2b : reg.find? (fun x => x.id == sid2) = some s2 := hg2
      have hs2 : (s2.id == sid2) = true := by
        have h := List.find?_some hg2b
        simpa using h
      have hs2ne : (s2.id == sid) = false := by
        have heq : s2.id = sid2 := by simpa using hs2
        simp [heq, hne]
      show some (if s2.id == sid then { s2 with baseUrl := url } else s2) = some s2
      rw [if_neg (by simp [hs2ne])]
  · unfold executeTarget
    rw [hfind]
    dsimp only
    rw [hsid, hget]
    dsimp only
    rw [if_pos hactive]
  · unfold executeTarget
    rw [hfind]
    dsimp only
    rw [hsid, h1]
    dsimp only
    rw [if_pos hactive]

/-- Concrete fixture: a registered, active server owning `get_user`. -/
def serverA : DeployedServer :=
  { id := "server-a-uuid"
    baseUrl := "http://old.example"
    tools := [toolGetUserA]
    active := true }

/-- Concrete fixture: a one-server registry. -/
def reg0 : List DeployedServer := [serverA]

/-- Concrete fixture: a session with one already-returned result. -/
def sess0 : Session :=
  { registry := reg0
    transcript := [("get_user", Except.ok "http://old.example")] }

/-- C8 witness: retargeting `server-a-uuid` to a new base URL flips the
dispatch target of `get_user` while leaving the transcript alone. -/
theorem updateBaseUrl_frame_witness :
    getServer (updateBaseUrl reg0 "server-a-uuid" "http://new.example")
        "server-a-uuid" =
      some { serverA with baseUrl := "http://new.example" }
    ∧ (∀ sid2, sid2 ≠ "server-a-uuid" →
        getServer (updateBaseUrl reg0 "server-a-uuid" "http://new.example") sid2 =
          getServer reg0 sid2)
    ∧ executeTarget reg0 accA "get_user" = .ok serverA.baseUrl
    ∧ executeTarget (updateBaseUrl reg0 "server-a-uuid" "http://new.example")
        accA "get_user" = .ok "http://new.example"
    ∧ (updateStep sess0 "server-a-uuid" "http://new.example").transcript =
        sess0.transcript :=
  updateBaseUrl_frame reg0 "server-a-uuid" "http://new.example" sess0 accA
    "get_user" { name := "get_user", serverId := "server-a-uuid", tool := toolGetUserA }
    serverA rfl rfl rfl rfl

lemma runToolLoop_events_ok (be : Backend) (origHist : List String)
    (tcs : List ToolCall) :
    ∀ st : SandboxState,
      (∀ tc ∈ tcs, (be.exec (mkExecReq st origHist tc)).isOk = true) →
      (runToolLoop be origHist tcs st).2 = tcs.flatMap execToolEvents := by
  induction tcs with
  | nil => intro st _; rfl
  | cons tc rest ih =>
    intro st h
    have htc := h tc (List.mem_cons_self tc rest)
    unfold runToolLoop
    cases hx : be.exec (mkExecReq st origHist tc) with
    | error e =>
      rw [hx] at htc
      exact absurd htc (by simp [Except.isOk, Except.toBool])
    | ok tr =>
      simp only [hx, List.flatMap_cons]
      congr 1
      exact ih _ fun tc2 h2 => h tc2 (List.mem_cons_of_mem _ h2)

lemma runToolLoop_messages_extend (be : Backend) (origHist : List String)
    (tcs : List ToolCall) :
    ∀ st : SandboxState, ∃ ex,
      (runToolLoop be origHist tcs st).1.messages = st.messages ++ ex := by
  induction tcs with
  | nil => intro st; exact ⟨[], (List.append_nil _).symm⟩
  | cons tc rest ih =>
    intro st
    unfold runToolLoop
    cases hx : be.exec (mkExecReq st origHist tc) with
    | error e => exact ⟨[errorMessage e], rfl⟩
    | ok tr =>
      obtain ⟨ex, hex⟩ := ih (execAdvance st tr)
      refine ⟨[execFinalMessage tr] ++ ex, ?_⟩
      show (runToolLoop be origHist rest (execAdvance st tr)).1.messages = _
      rw [hex]
      show (st.messages ++ [execFinalMessage tr]) ++ ex = _
      exact List.append_assoc _ _ _

lemma runToolLoop_lastAssistant (be : Backend) (origHist : List String)
    (tcs : List ToolCall) :
    ∀ st : SandboxState,
      st.messages.getLast?.map Message.role = some Role.assistant →
      (runToolLoop be origHist tcs st).1.messages.getLast?.map Message.role =
        some Role.assistant := by
  induction tcs with
  | nil => intro st h; exact h
  | cons tc rest ih =>
    intro st h
    unfold runToolLoop
    cases hx : be.exec (mkExecReq st origHist tc) with
    | error e =>
      show ((st.messages ++ [errorMessage e]).getLast?.map Message.role) = _
      rw [List.getLast?_concat]
      rfl
    | ok tr =>
      apply ih
      show ((st.messages ++ [execFinalMessage tr]).getLast?.map Message.role) = _
      rw [List.getLast?_concat]
      rfl

lemma runToolLoop_execs_sub (be : Backend) (origHist : List String)
    (tcs : List ToolCall) :
    ∀ (st : SandboxState) (tc2 : ToolCall),
      AgentEvent.toolExec tc2 ∈ (runToolLoop be origHist tcs st).2 →
      tc2 ∈ tcs := by
  induction tcs with
  | nil => intro st tc2 h; exact absurd h (List.not_mem_nil _)
  | cons tc rest ih =>
    intro st tc2 h
    unfold runToolLoop at h
    cases hx : be.exec (mkExecReq st origHist tc) with
    | error e =>
      rw [hx] at h
      exact absurd h (List.not_mem_nil _)
    | ok tr =>
      rw [hx] at h
      simp only [execToolEvents, List.cons_append, List.mem_cons] at h
      rcases h with h1 | h2 | h3
      · injection h1 with h1
        exact h1 ▸ List.mem_cons_self _ _
      · exact absurd h2 (by simp)
      · exact List.mem_cons_of_mem _ (ih _ _ h3)

lemma runToolLoop_length (be : Backend) (origHist : List String)
    (tcs : List ToolCall) :
    ∀ st : SandboxState,
      (runToolLoop be origHist tcs st).2.length ≤ 2 * tcs.length := by
  induction tcs with
  | nil => intro st; simp [runToolLoop]
  | cons tc rest ih =>
    intro st
    unfold runToolLoop
    cases hx : be.exec (mkExecReq st origHist tc) with
    | error e => simp
    | ok tr =>
      simp only [execToolEvents, List.cons_append, List.length_cons,
        List.length_append, List.length_nil]
      have hrest := ih (execAdvance st tr)
      omega

/-- C1 counterexample: with two pending invocations the turn's events
are `providerCall, toolExec tcA, providerCall, toolExec tcB,
providerCall` — a provider call is issued between the two tool
executions, so not all tool executions of the turn complete before the
next provider call. -/
theorem sendMessage_interleaves_providerCalls :
    (handleSendMessage be2 st0).2 =
      [.providerCall, .toolExec tcA, .providerCall, .toolExec tcB,
       .providerCall]
    ∧ allExecsBeforeNextCall (handleSendMessage be2 st0).2 = false :=
  ⟨by decide, by decide⟩

/-- C1 (amended): the pending invocations of a provider response are
executed sequentially in order and every one of them is executed (when
the round trips succeed), but a provider call is issued after each
single tool execution — the events are exactly
`providerCall` followed by `toolExec tc, providerCall` per invocation,
not all executions before one next provider call. -/
theorem sendMessage_events_per_invocation (be : Backend) (st : SandboxState)
    (result : TestMessageResponse)
    (hguard : ¬(jsTrim st.inputMessage = "" ∨ st.selectedServerIds = []))
    (htest : be.test (mkTestReq st) = .ok result)
    (hreq : result.requires_tool_execution = true)
    (hexec : ∀ tc ∈ result.tool_calls,
      (be.exec (mkExecReq st result.conversation_history tc)).isOk = true) :
    (handleSendMessage be st).2 =
      AgentEvent.providerCall :: result.tool_calls.flatMap execToolEvents := by
  unfold handleSendMessage
  rw [if_neg hguard, htest]
  dsimp only
  by_cases hcalls : result.tool_calls = []
  · rw [if_neg (by simp [hcalls])]
    rw [hcalls]
    rfl
  · rw [if_pos ⟨hreq, hcalls⟩]
    dsimp only
    rw [runToolLoop_events_ok be result.conversation_history result.tool_calls
      (afterAssistant st result) (fun tc h => hexec tc h)]
    rfl

/-- C1 witness: the amended event law evaluated on the concrete
two-invocation backend. -/
theorem sendMessage_events_per_invocation_witness :
    (handleSendMessage be2 st0).2 =
      AgentEvent.providerCall :: [tcA, tcB].flatMap execToolEvents :=
  sendMessage_events_per_invocation be2 st0 twoCallResponse (by decide) rfl
    rfl (by decide)

/-- C2 counterexample: the execute-tool response for `tcA` carries the
additional invocation `tcC`, yet `tcC` is neither executed (no
`toolExec tcC` event) nor surfaced (it appears in no message's
`toolCalls`): `handleSendMessage` never reads `additional_tool_calls`,
silently dropping the invocation. -/
theorem sendMessage_drops_additional_calls :
    be3.exec (mkExecReq st0 ["h1"] tcA) = .ok tr3
    ∧ tcC ∈ tr3.additional_tool_calls
    ∧ AgentEvent.toolExec tcC ∉ (handleSendMessage be3 st0).2
    ∧ ∀ m ∈ (handleSendMessage be3 st0).1.messages, tcC ∉ m.toolCalls :=
  ⟨rfl, by decide, by decide, by decide⟩

/-- C2 (amended): for every submitted message passing the guard the
caller receives at least the user message plus a final assistant
message (answer or structured error text), and only invocations of the
initial provider response are ever executed — additional tool calls
returned by an execute-tool follow-up are never executed. -/
theorem sendMessage_reply_and_only_initial_executions (be : Backend)
    (st : SandboxState)
    (hguard : ¬(jsTrim st.inputMessage = "" ∨ st.selectedServerIds = [])) :
    ((handleSendMessage be st).1.messages.length ≥ st.messages.length + 2
      ∧ (handleSendMessage be st).1.messages.getLast?.map Message.role =
          some Role.assistant)
    ∧ ∀ tc, AgentEvent.toolExec tc ∈ (handleSendMessage be st).2 →
        ∃ r, be.test (mkTestReq st) = .ok r ∧ tc ∈ r.tool_calls := by
  unfold handleSendMessage
  rw [if_neg hguard]
  cases htest : be.test (mkTestReq st) with
  | error e =>
    dsimp only
    refine ⟨⟨?_, ?_⟩, ?_⟩
    · show ((afterUser st).messages ++ [errorMessage e]).length ≥ _
      simp only [afterUser, List.length_append, List.length_cons,
        List.length_nil]
      omega
    · show (((afterUser st).messages ++ [errorMessage e]).getLast?.map
        Message.role) = _
      rw [List.getLast?_concat]
      rfl
    · intro tc h
      exact absurd h (List.not_mem_nil _)
  | ok result =>
    dsimp only
    by_cases hcond : result.requires_tool_execution = true ∧
        result.tool_calls ≠ []
    · rw [if_pos hcond]
      dsimp only
      refine ⟨⟨?_, ?_⟩, ?_⟩
      · obtain ⟨ex, hex⟩ := runToolLoop_messages_extend be
          result.conversation_history result.tool_calls (afterAssistant st result)
        rw [hex]
        show ((st.messages ++ [userMessage st]) ++ [assistantMessage result]
          ++ ex).length ≥ _
        simp only [List.length_append, List.length_cons, List.length_nil]
        omega
      · apply runToolLoop_lastAssistant
        show (((afterUser st).messages ++ [assistantMessage result]).getLast?.map
          Message.role) = _
        rw [List.getLast?_concat]
        rfl
      · intro tc h
        rcases List.mem_append.mp h with h1 | h2
        · exact absurd h1 (by simp [testEvents])
        · exact ⟨result, rfl,
            runToolLoop_execs_sub be result.conversation_history
              result.tool_calls _ tc h2⟩
    · rw [if_neg hcond]
      dsimp only
      refine ⟨⟨?_, ?_⟩, ?_⟩
      · show ((st.messages ++ [userMessage st]) ++
          [assistantMessage result]).length ≥ _
        simp only [List.length_append, List.length_cons, List.length_nil]
        omega
      · show (((afterUser st).messages ++ [assistantMessage result]).getLast?.map
          Message.role) = _
        rw [List.getLast?_concat]
        rfl
      · intro tc h
        exact absurd h (by simp [testEvents])

/-- C2 witness: the amended behaviour evaluated on the concrete
two-invocation backend. -/
theorem sendMessage_reply_and_only_initial_executions_witness :
    ((handleSendMessage be2 st0).1.messages.length ≥ st0.messages.length + 2
      ∧ (handleSendMessage be2 st0).1.messages.getLast?.map Message.role =
          some Role.assistant)
    ∧ ∀ tc, AgentEvent.toolExec tc ∈ (handleSendMessage be2 st0).2 →
        ∃ r, be2.test (mkTestReq st0) = .ok r ∧ tc ∈ r.tool_calls :=
  sendMessage_reply_and_only_initial_executions be2 st0 (by decide)

/-- C7 counterexample: with the backend whose execute-tool follow-up
still requests a further invocation, the loop ends after one round even
though the turn's final provider response carries a pending invocation
(`tcC`), and no message of the final state is any turn-limit notice —
the three messages are exactly the user input, the tool-call assistant
message and the provider's follow-up text.  The page has no iteration
cap and no `TurnLimitExceeded` construct at all. -/
theorem sendMessage_ends_with_pending_calls :
    (handleSendMessage be3 st0).2 =
      [.providerCall, .toolExec tcA, .providerCall]
    ∧ be3.exec (mkExecReq st0 ["h1"] tcA) = .ok tr3
    ∧ tr3.additional_tool_calls ≠ []
    ∧ (handleSendMessage be3 st0).1.messages =
        [{ role := .user, content := "hi", toolCalls := [], toolResults := [],
           usage := none },
         { role := .assistant, content := "(Tool calls in progress...)",
           toolCalls := [tcA], toolResults := [],
           usage := some { input_tokens := 1, output_tokens := 1 } },
         { role := .assistant, content := "calling again", toolCalls := [],
           toolResults := ["r404"],
           usage := some { input_tokens := 1, output_tokens := 1 } }] :=
  ⟨by decide, rfl, by decide, by decide⟩

/-- C7 (amended): the loop always terminates, but by exhaustion rather
than a cap: it performs at most one tool-execution round — at most one
execute-tool round trip (two events) per invocation of the initial
provider response plus the initial provider call — and only initial
invocations are ever executed; there is no iteration cap and no
turn-limit notice. -/
theorem sendMessage_single_round_bound (be : Backend) (st : SandboxState)
    (result : TestMessageResponse)
    (htest : be.test (mkTestReq st) = .ok result) :
    (handleSendMessage be st).2.length ≤ 1 + 2 * result.tool_calls.length
    ∧ ∀ tc, AgentEvent.toolExec tc ∈ (handleSendMessage be st).2 →
        tc ∈ result.tool_calls := by
  unfold handleSendMessage
  by_cases hguard : jsTrim st.inputMessage = "" ∨ st.selectedServerIds = []
  · rw [if_pos hguard]
    exact ⟨by simp, fun tc h => absurd h (List.not_mem_nil _)⟩
  · rw [if_neg hguard, htest]
    dsimp only
    by_cases hcond : result.requires_tool_execution = true ∧
        result.tool_calls ≠ []
    · rw [if_pos hcond]
      dsimp only
      constructor
      · have hlen := runToolLoop_length be result.conversation_history
          result.tool_calls (afterAssistant st result)
        simp only [testEvents, List.length_append, List.length_cons,
          List.length_nil]
        omega
      · intro tc h
        rcases List.mem_append.mp h with h1 | h2
        · exact absurd h1 (by simp [testEvents])
        · exact runToolLoop_execs_sub be result.conversation_history
            result.tool_calls _ tc h2
    · rw [if_neg hcond]
      refine ⟨by simp [testEvents], ?_⟩
      intro tc h
      exact absurd h (by simp [testEvents])

/-- C7 witness: the bound evaluated on the concrete backend whose
follow-up keeps requesting invocations. -/
theorem sendMessage_single_round_bound_witness :
    (handleSendMessage be3 st0).2.length ≤
      1 + 2 * oneCallResponse.tool_calls.length
    ∧ ∀ tc, AgentEvent.toolExec tc ∈ (handleSendMessage be3 st0).2 →
        tc ∈ oneCallResponse.tool_calls :=
  sendMessage_single_round_bound be3 st0 oneCallResponse rfl

end MCPPortal
